import Mathlib

/-!
Shallow embedding of the FHIR scheduler demo (src/app.py), covering the
record normalizer, the five-criterion scoring engine, the ranker, the
schedule fetch parsing and the session booking history.

Machine dates are modelled abstractly: the external date parser
(dateutil / datetime) is an explicit argument of type
String → Option Timestamp, where a Timestamp carries the calendar date
(as the day count used by Python date subtraction) and the hour.
-/

namespace App

/-- Result of parsing a timestamp string: the calendar date as an integer
day number (so that subtracting two dates yields the day difference that
Python computes with (a - b).days) and the hour of day. -/
structure Timestamp where
  date : Int
  hour : Nat
  deriving DecidableEq

/-- Python str.lower, modelled as lowercasing every character. -/
def pyLower (s : String) : String :=
  String.mk (s.data.map Char.toLower)

/-- Python substring containment: needle in hay. -/
def pyIn (needle hay : String) : Bool :=
  decide (needle.data <:+: hay.data)

/-- One entry of a FHIR coding list: an object with an optional display. -/
structure Coding where
  display : Option String
  deriving DecidableEq

/-- The nested concept object of a serviceType entry. -/
structure Concept where
  coding : Option (List Coding)
  deriving DecidableEq

/-- One entry of a Schedule's serviceType list. -/
structure ServiceTypeEntry where
  concept : Option Concept
  deriving DecidableEq

/-- One entry of a Schedule's specialty list: coding sits directly below. -/
structure SpecialtyEntry where
  coding : Option (List Coding)
  deriving DecidableEq

/-- One entry of a Schedule's actor list. -/
structure ActorEntry where
  display : Option String
  deriving DecidableEq

/-- A planningHorizon object; an absent key is None, a present key with an
empty dict is some with both fields absent. -/
structure PlanningHorizon where
  start : Option String
  end_ : Option String
  deriving DecidableEq

/-- A FHIR Schedule resource, restricted to the fields the code reads;
every field is optional because absence is not an error. -/
structure Schedule where
  id : Option String
  name : Option String
  comment : Option String
  actor : Option (List ActorEntry)
  serviceType : Option (List ServiceTypeEntry)
  specialty : Option (List SpecialtyEntry)
  planningHorizon : Option PlanningHorizon
  active : Option Bool
  deriving DecidableEq

/-- The flat scoring view that rank_appointment_options builds per
schedule before scoring (the details dict, lines 269-306). -/
structure ScoringView where
  schedule_id : String
  name : String
  comment : String
  actors : List String
  service_types : List String
  specialties : List String
  planning_horizon : Option PlanningHorizon
  active : Bool
  deriving DecidableEq

/-- User preferences as read by the scoring engine; every key is read with
dict.get and a default, so each field is optional. -/
structure Preferences where
  service_type : Option String
  specialty : Option String
  preferred_time : Option String
  max_results : Option Nat
  deriving DecidableEq

/-- Extraction of one serviceType display string, line 293 of the source:
st.get followed by chained .get defaults and a [0] index. The only
failing shape is a present but empty coding list, where [0] raises
IndexError. -/
def extractServiceTypeDisplay (e : ServiceTypeEntry) : Except String String :=
  match e.concept with
  | none => Except.ok "Unknown"
  | some c =>
    match c.coding with
    | none => Except.ok "Unknown"
    | some [] => Except.error "IndexError"
    | some (cd :: _) => Except.ok (cd.display.getD "Unknown")

/-- Extraction of one specialty display string, line 300 of the source:
spec.get with default followed by a [0] index; a present but empty
coding list raises IndexError. -/
def extractSpecialtyDisplay (e : SpecialtyEntry) : Except String String :=
  match e.coding with
  | none => Except.ok "Unknown"
  | some [] => Except.error "IndexError"
  | some (cd :: _) => Except.ok (cd.display.getD "Unknown")

/-- The per-schedule extraction block of rank_appointment_options
(lines 269-306): defaults for id, name and comment, actor displays,
serviceType and specialty displays, planning horizon verbatim, and the
active flag read with schedule.get at line 380. -/
def normalize (s : Schedule) : Except String ScoringView := do
  let actors := (s.actor.getD []).map (fun a => a.display.getD "Unknown")
  let service_types ← (s.serviceType.getD []).mapM extractServiceTypeDisplay
  let specialties ← (s.specialty.getD []).mapM extractSpecialtyDisplay
  Except.ok
    ⟨s.id.getD "Unknown", s.name.getD "Unknown Schedule", s.comment.getD "",
     actors, service_types, specialties, s.planningHorizon, s.active.getD false⟩

/-- Python truthiness of the planning_horizon dict: the initial value is
the empty dict, which is falsy; a present dict is truthy when it has an
entry. -/
def phTruthy : Option PlanningHorizon → Bool
  | none => false
  | some ph => ph.start.isSome || ph.end_.isSome

/-- The start value handed to the date parser:
planning_horizon.get with an empty-string default. -/
def phStartStr : Option PlanningHorizon → String
  | none => ""
  | some ph => ph.start.getD ""

/-- Criterion 1, Service Type Matching (lines 314-323): 30 points once if
the lowered preferred service type is non-empty and is a substring of
some lowered view service type. -/
def serviceScore (v : ScoringView) (p : Preferences) : Nat :=
  let preferred := pyLower (p.service_type.getD "")
  if preferred = "" then 0
  else if v.service_types.any (fun s0 => pyIn preferred (pyLower s0)) then 30
  else 0

/-- Criterion 2, Medical Specialty Matching (lines 325-334): 25 points
once under the same rule against the specialty strings. -/
def specialtyScore (v : ScoringView) (p : Preferences) : Nat :=
  let preferred := pyLower (p.specialty.getD "")
  if preferred = "" then 0
  else if v.specialties.any (fun s0 => pyIn preferred (pyLower s0)) then 25
  else 0

/-- Criterion 3, Time Preference (lines 336-355): requires a truthy
planning horizon and a parseable start; preferred_time defaults to
morning; a parse failure is swallowed and scores 0. -/
def timeScore (parseDate : String → Option Timestamp)
    (v : ScoringView) (p : Preferences) : Nat :=
  if phTruthy v.planning_horizon then
    match parseDate (phStartStr v.planning_horizon) with
    | none => 0
    | some t =>
      let preferred := p.preferred_time.getD "morning"
      if preferred = "morning" ∧ t.hour < 12 then 15
      else if preferred = "afternoon" ∧ 12 ≤ t.hour ∧ t.hour < 17 then 15
      else if preferred = "evening" ∧ 17 ≤ t.hour then 15
      else 0
  else 0

/-- Criterion 4, Availability (lines 357-376): requires a truthy planning
horizon and a parseable start; with d the day difference to today, the
code awards 20 when d is at most 7, else 15 when at most 14, else 10
when at most 30, else nothing; parse failure scores 0. -/
def availabilityScore (parseDate : String → Option Timestamp)
    (today : Int) (v : ScoringView) : Nat :=
  if phTruthy v.planning_horizon then
    match parseDate (phStartStr v.planning_horizon) with
    | none => 0
    | some t =>
      let d : Int := t.date - today
      if d ≤ 7 then 20
      else if d ≤ 14 then 15
      else if d ≤ 30 then 10
      else 0
  else 0

/-- Criterion 5, Active Schedule Verification (lines 378-383): 10 points
when the schedule's active flag is truthy (the view stores
schedule.get of active with default False). -/
def activeScore (v : ScoringView) : Nat :=
  if v.active then 10 else 0

/-- The total score accumulated by the five sequential score updates. -/
def totalScore (parseDate : String → Option Timestamp) (today : Int)
    (v : ScoringView) (p : Preferences) : Nat :=
  serviceScore v p + specialtyScore v p + timeScore parseDate v p +
    availabilityScore parseDate today v + activeScore v

/-- The score_details dict in insertion order: each criterion sets its
label exactly when it awards its (always positive) points. -/
def scoreDetails (parseDate : String → Option Timestamp) (today : Int)
    (v : ScoringView) (p : Preferences) : List (String × Nat) :=
  (if 0 < serviceScore v p then [("Service Match", serviceScore v p)] else []) ++
  (if 0 < specialtyScore v p then [("Specialty Match", specialtyScore v p)] else []) ++
  (if 0 < timeScore parseDate v p then [("Time Preference", timeScore parseDate v p)] else []) ++
  (if 0 < availabilityScore parseDate today v then [("Availability", availabilityScore parseDate today v)] else []) ++
  (if 0 < activeScore v then [("Active Schedule", activeScore v)] else [])

/-- One ranked option: the extracted view plus its score and breakdown. -/
structure ScoreResult where
  view : ScoringView
  score : Nat
  score_details : List (String × Nat)
  deriving DecidableEq

/-- Extraction plus scoring for one schedule (one iteration of the loop
in rank_appointment_options). -/
def scoreSchedule (parseDate : String → Option Timestamp) (today : Int)
    (p : Preferences) (s : Schedule) : Except String ScoreResult := do
  let v ← normalize s
  Except.ok ⟨v, totalScore parseDate today v p, scoreDetails parseDate today v p⟩

/-- Stable insertion of one result into a descending-sorted list: the new
element, which precedes the list elements in input order, passes only
elements that score strictly higher, so equal scores keep input order.
This matches Python list.sort with a score key and reverse=True, which
is a stable descending sort. -/
def insertDesc (x : ScoreResult) : List ScoreResult → List ScoreResult
  | [] => [x]
  | y :: ys => if x.score < y.score then y :: insertDesc x ys else x :: y :: ys

/-- The ranker (line 394): stable sort by descending score. -/
def sortByScoreDesc : List ScoreResult → List ScoreResult
  | [] => []
  | x :: xs => insertDesc x (sortByScoreDesc xs)

/-- rank_appointment_options (lines 238-396): score every schedule in
order, propagating any extraction exception, then sort descending. -/
def rank_appointment_options (parseDate : String → Option Timestamp)
    (today : Int) (schedules : List Schedule) (p : Preferences) :
    Except String (List ScoreResult) := do
  let results ← schedules.mapM (scoreSchedule parseDate today p)
  Except.ok (sortByScoreDesc results)

/-- One entry of a FHIR search Bundle. -/
structure BundleEntry where
  resource : Schedule
  deriving DecidableEq

/-- A FHIR search Bundle: the entry list may be absent. -/
structure Bundle where
  entry : Option (List BundleEntry)
  deriving DecidableEq

/-- Outcome of the HTTP request made by search_schedules: either a raised
request exception or a response with a status code and a parsed body. -/
inductive FetchOutcome where
  | exn : FetchOutcome
  | response : Nat → Bundle → FetchOutcome
  deriving DecidableEq

/-- search_schedules (lines 106-143): on an exception return the empty
list; on a non-200 status return the empty list; on 200 return the
resources of the bundle's entries (none when the entry key is absent).
The active_only flag only shapes the request parameters; it is kept to
mirror the source signature. -/
def search_schedules (active_only : Bool) : FetchOutcome → List Schedule
  | FetchOutcome.exn => []
  | FetchOutcome.response status bundle =>
    if status = 200 then (bundle.entry.getD []).map BundleEntry.resource
    else []

/-- A session booking entry as stored at lines 862-868. -/
structure BookingRecord where
  appointment_id : String
  patient_name : String
  provider : String
  schedule_id : String
  booking_time : String
  deriving DecidableEq

/-- Recording a booking appends it to the session history list
(line 862-868: booked_appointments.append). -/
def record_booking (history : List BookingRecord) (b : BookingRecord) :
    List BookingRecord :=
  history ++ [b]

/-- Listing the session history (lines 897-919 iterate the list in
stored order). -/
def list_bookings (history : List BookingRecord) : List BookingRecord :=
  history

theorem serviceScore_le (v : ScoringView) (p : Preferences) :
    serviceScore v p ≤ 30 := by
  simp only [serviceScore]
  split_ifs <;> omega

theorem specialtyScore_le (v : ScoringView) (p : Preferences) :
    specialtyScore v p ≤ 25 := by
  simp only [specialtyScore]
  split_ifs <;> omega

theorem timeScore_le (parseDate : String → Option Timestamp)
    (v : ScoringView) (p : Preferences) : timeScore parseDate v p ≤ 15 := by
  simp only [timeScore]
  split_ifs with h
  · cases hp : parseDate (phStartStr v.planning_horizon) with
    | none => simp
    | some t => simp only []; split_ifs <;> omega
  · omega

theorem availabilityScore_le (parseDate : String → Option Timestamp)
    (today : Int) (v : ScoringView) :
    availabilityScore parseDate today v ≤ 20 := by
  simp only [availabilityScore]
  split_ifs with h
  · cases hp : parseDate (phStartStr v.planning_horizon) with
    | none => simp
    | some t => simp only []; split_ifs <;> omega
  · omega

theorem activeScore_le (v : ScoringView) : activeScore v ≤ 10 := by
  simp only [activeScore]
  split_ifs <;> omega

/-- C2: for every scoring view and preference set, the total score is an
integer between 0 and 100 inclusive. -/
theorem total_score_within_bounds (parseDate : String → Option Timestamp)
    (today : Int) (v : ScoringView) (p : Preferences) :
    0 ≤ totalScore parseDate today v p ∧ totalScore parseDate today v p ≤ 100 := by
  have h1 := serviceScore_le v p
  have h2 := specialtyScore_le v p
  have h3 := timeScore_le parseDate v p
  have h4 := availabilityScore_le parseDate today v
  have h5 := activeScore_le v
  unfold totalScore
  omega

/-- The availability record containing only an empty object. -/
def emptySchedule : Schedule :=
  ⟨none, none, none, none, none, none, none, none⟩

/-- A record whose single serviceType entry carries a present but empty
coding list: the chained defaults do not cover this shape and the [0]
index raises IndexError. -/
def emptyCodingSchedule : Schedule :=
  ⟨none, none, none, none, some [⟨some ⟨some []⟩⟩], none, none, none⟩

/-- C3: extraction of the empty record yields the documented defaults,
but extraction is not total: a record whose serviceType entry has a
present, empty coding list makes the extraction raise IndexError
instead of degrading to a default. -/
theorem normalize_fails_on_empty_coding_list :
    normalize emptySchedule =
      Except.ok ⟨"Unknown", "Unknown Schedule", "", [], [], [], none, false⟩ ∧
    normalize emptyCodingSchedule = Except.error "IndexError" :=
  ⟨rfl, rfl⟩

/-- C7 counterexample: a raised request exception and a successful fetch
that found zero records both return the empty list, so the caller
cannot distinguish the two outcomes. -/
theorem fetch_failure_equals_empty_success :
    search_schedules true FetchOutcome.exn = ([] : List Schedule) ∧
    search_schedules true (FetchOutcome.response 200 ⟨none⟩) = ([] : List Schedule) ∧
    search_schedules true FetchOutcome.exn =
      search_schedules true (FetchOutcome.response 200 ⟨none⟩) :=
  ⟨rfl, rfl, rfl⟩

/-- C7 amended: search_schedules returns the empty list both on a request
exception and on any non-200 response, and returns the bundle's entry
resources on a 200 response; failures are therefore folded into the
empty sequence rather than surfaced as a distinguishable value. -/
theorem search_schedules_empty_on_failure (active_only : Bool) :
    search_schedules active_only FetchOutcome.exn = [] ∧
    (∀ status bundle, status ≠ 200 →
      search_schedules active_only (FetchOutcome.response status bundle) = []) ∧
    (∀ bundle, search_schedules active_only (FetchOutcome.response 200 bundle) =
      (bundle.entry.getD []).map BundleEntry.resource) := by
  refine ⟨rfl, ?_, ?_⟩
  · intro status bundle hst
    simp [search_schedules, hst]
  · intro bundle
    simp [search_schedules]

/-- Witness for the C7 amended theorem at a concrete failing status. -/
theorem search_schedules_empty_on_failure_witness :
    search_schedules true (FetchOutcome.response 500 ⟨none⟩) = [] :=
  (search_schedules_empty_on_failure true).2.1 500 ⟨none⟩ (by decide)

/-- C8: recording appends to the history and listing returns the full
sequence oldest first, so two sequential record calls are listed in
call order. -/
theorem booking_history_append_order (history : List BookingRecord)
    (b1 b2 : BookingRecord) :
    list_bookings (record_booking history b1) = list_bookings history ++ [b1] ∧
    list_bookings (record_booking (record_booking history b1) b2) =
      history ++ [b1, b2] := by
  simp [list_bookings, record_booking]

theorem insertDesc_perm (x : ScoreResult) (l : List ScoreResult) :
    List.Perm (insertDesc x l) (x :: l) := by
  induction l with
  | nil => simp [insertDesc]
  | cons y ys ih =>
    unfold insertDesc
    split_ifs with h
    · exact (ih.cons y).trans (List.Perm.swap x y ys)
    · exact List.Perm.refl _

theorem sortByScoreDesc_perm (l : List ScoreResult) :
    List.Perm (sortByScoreDesc l) l := by
  induction l with
  | nil => simp [sortByScoreDesc]
  | cons x xs ih => exact (insertDesc_perm x _).trans (ih.cons x)

theorem mem_insertDesc {z x : ScoreResult} {l : List ScoreResult}
    (hz : z ∈ insertDesc x l) : z = x ∨ z ∈ l := by
  have := (insertDesc_perm x l).mem_iff.mp hz
  simpa using this

theorem insertDesc_pairwise {x : ScoreResult} {l : List ScoreResult}
    (h : l.Pairwise (fun a b => b.score ≤ a.score)) :
    (insertDesc x l).Pairwise (fun a b => b.score ≤ a.score) := by
  induction l with
  | nil => simp [insertDesc]
  | cons y ys ih =>
    rcases List.pairwise_cons.mp h with ⟨hy, hys⟩
    unfold insertDesc
    split_ifs with hlt
    · refine List.pairwise_cons.mpr ⟨?_, ih hys⟩
      intro z hz
      rcases mem_insertDesc hz with rfl | hzys
      · omega
      · exact hy z hzys
    · refine List.pairwise_cons.mpr ⟨?_, h⟩
      intro z hz
      rcases List.mem_cons.mp hz with rfl | hzys
      · omega
      · have := hy z hzys
        omega

theorem sortByScoreDesc_pairwise (l : List ScoreResult) :
    (sortByScoreDesc l).Pairwise (fun a b => b.score ≤ a.score) := by
  induction l with
  | nil => simp [sortByScoreDesc]
  | cons x xs ih => exact insertDesc_pairwise ih

theorem insertDesc_filter (x : ScoreResult) (l : List ScoreResult) (s : Nat) :
    (insertDesc x l).filter (fun r => r.score == s) =
      if x.score = s then x :: l.filter (fun r => r.score == s)
      else l.filter (fun r => r.score == s) := by
  induction l with
  | nil =>
    by_cases h : x.score = s <;> simp [insertDesc, List.filter_cons, h]
  | cons y ys ih =>
    unfold insertDesc
    by_cases hlt : x.score < y.score
    · rw [if_pos hlt]
      by_cases hx : x.score = s
      · have hy : ¬ ((y.score == s) = true) := by
          simp only [beq_iff_eq]
          omega
        simp only [List.filter_cons, ih, if_pos hx, if_neg hy]
      · by_cases hy : (y.score == s) = true
        · simp only [List.filter_cons, ih, if_neg hx, if_pos hy]
        · simp only [List.filter_cons, ih, if_neg hx, if_neg hy]
    · rw [if_neg hlt]
      by_cases hx : x.score = s
      · have hb : (x.score == s) = true := by simp [hx]
        simp only [List.filter_cons, if_pos hb, if_pos hx]
      · have hb : ¬ ((x.score == s) = true) := by simp [hx]
        simp only [List.filter_cons, if_neg hb, if_neg hx]

theorem sortByScoreDesc_filter (l : List ScoreResult) (s : Nat) :
    (sortByScoreDesc l).filter (fun r => r.score == s) =
      l.filter (fun r => r.score == s) := by
  induction l with
  | nil => rfl
  | cons x xs ih =>
    show (insertDesc x (sortByScoreDesc xs)).filter _ = _
    rw [insertDesc_filter, List.filter_cons]
    by_cases hx : x.score = s
    · have hb : (x.score == s) = true := by simp [hx]
      rw [if_pos hx, if_pos hb, ih]
    · have hb : ¬ ((x.score == s) = true) := by simp [hx]
      rw [if_neg hx, if_neg hb, ih]

/-- C6: the ranker returns a permutation of its input that is sorted by
total score descending, and it is stable: for every score value the
results carrying that score appear in their input order, because the
filter at that score is unchanged. -/
theorem ranker_sorted_descending_and_stable (l : List ScoreResult) :
    List.Perm (sortByScoreDesc l) l ∧
    (sortByScoreDesc l).Pairwise (fun a b => b.score ≤ a.score) ∧
    ∀ s : Nat, (sortByScoreDesc l).filter (fun r => r.score == s) =
      l.filter (fun r => r.score == s) :=
  ⟨sortByScoreDesc_perm l, sortByScoreDesc_pairwise l,
   fun s => sortByScoreDesc_filter l s⟩

/-- A parser placing every start one day in the past relative to day 0. -/
def pastParse : String → Option Timestamp := fun _ => some ⟨-1, 9⟩

/-- A view with a truthy planning horizon used for the C1 counterexample. -/
def pastView : ScoringView :=
  ⟨"sched1", "Schedule", "", [], [], [], some ⟨some "start", none⟩, false⟩

/-- C1 counterexample: a planning horizon start one day in the past has a
negative day difference, yet the Availability criterion awards 20
points rather than the 0 the claim requires for a negative difference. -/
theorem availability_negative_day_scores_twenty :
    ((-1 : Int) - 0 < 0) ∧ availabilityScore pastParse 0 pastView = 20 := by
  exact ⟨by decide, rfl⟩

/-- C1 amended: with a truthy planning horizon and a parseable start, the
Availability criterion is a function of the day difference d alone: 20
points when d is at most 7 (negative differences included), 15 when d
is between 8 and 14, 10 when d is between 15 and 30, and 0 when d
exceeds 30; an unparseable or absent start yields 0 points. -/
theorem availability_score_by_day_difference
    (parseDate : String → Option Timestamp) (today : Int) (v : ScoringView) :
    (∀ t : Timestamp, phTruthy v.planning_horizon = true →
      parseDate (phStartStr v.planning_horizon) = some t →
      ((t.date - today ≤ 7 → availabilityScore parseDate today v = 20) ∧
       (8 ≤ t.date - today → t.date - today ≤ 14 →
         availabilityScore parseDate today v = 15) ∧
       (15 ≤ t.date - today → t.date - today ≤ 30 →
         availabilityScore parseDate today v = 10) ∧
       (30 < t.date - today → availabilityScore parseDate today v = 0))) ∧
    (phTruthy v.planning_horizon = true →
      parseDate (phStartStr v.planning_horizon) = none →
      availabilityScore parseDate today v = 0) ∧
    (phTruthy v.planning_horizon = false →
      availabilityScore parseDate today v = 0) := by
  refine ⟨?_, ?_, ?_⟩
  · intro t hph hp
    simp only [availabilityScore, hph, if_true, hp]
    refine ⟨fun h1 => ?_, fun h1 h2 => ?_, fun h1 h2 => ?_, fun h1 => ?_⟩ <;>
      split_ifs <;> omega
  · intro hph hp
    simp [availabilityScore, hph, hp]
  · intro hph
    simp [availabilityScore, hph]

/-- A view with a truthy planning horizon used for the C1 witness. -/
def witView : ScoringView :=
  ⟨"s", "n", "", [], [], [], some ⟨some "x", none⟩, false⟩

/-- A parser resolving every start to the given day at hour 9. -/
def witParse (d : Int) : String → Option Timestamp := fun _ => some ⟨d, 9⟩

/-- Witness for the C1 amended theorem: concrete starts 3, 10, 20 and 40
days out score 20, 15, 10 and 0, and an unparseable start scores 0. -/
theorem availability_score_by_day_difference_witness :
    availabilityScore (witParse 3) 0 witView = 20 ∧
    availabilityScore (witParse 10) 0 witView = 15 ∧
    availabilityScore (witParse 20) 0 witView = 10 ∧
    availabilityScore (witParse 40) 0 witView = 0 ∧
    availabilityScore (fun _ => none) 0 witView = 0 :=
  ⟨((availability_score_by_day_difference (witParse 3) 0 witView).1
      ⟨3, 9⟩ rfl rfl).1 (by decide),
   ((availability_score_by_day_difference (witParse 10) 0 witView).1
      ⟨10, 9⟩ rfl rfl).2.1 (by decide) (by decide),
   ((availability_score_by_day_difference (witParse 20) 0 witView).1
      ⟨20, 9⟩ rfl rfl).2.2.1 (by decide) (by decide),
   ((availability_score_by_day_difference (witParse 40) 0 witView).1
      ⟨40, 9⟩ rfl rfl).2.2.2 (by decide),
   (availability_score_by_day_difference (fun _ => none) 0 witView).2.1 rfl rfl⟩

/-- C10: when the preference set has no preferred_time key, the time
criterion uses the morning default, awarding 15 points exactly when
the parsed start's hour is below 12. -/
theorem time_preference_default_morning
    (parseDate : String → Option Timestamp) (v : ScoringView)
    (p : Preferences) (t : Timestamp)
    (hph : phTruthy v.planning_horizon = true)
    (hp : parseDate (phStartStr v.planning_horizon) = some t)
    (hnone : p.preferred_time = none) :
    timeScore parseDate v p = if t.hour < 12 then 15 else 0 := by
  simp only [timeScore, hph, if_true, hp, hnone, Option.getD_none]
  by_cases h : t.hour < 12
  · simp [h]
  · rw [if_neg h]
    split_ifs with h1 h2 h3
    · exact absurd h1.2 h
    · exact absurd h2.1 (by decide)
    · exact absurd h3.1 (by decide)
    · rfl

/-- A view with a truthy planning horizon used for the C10 witness. -/
def defView : ScoringView :=
  ⟨"s", "n", "", [], [], [], some ⟨some "x", none⟩, false⟩

/-- Preferences with every key absent, used for the C10 witness. -/
def defPrefs : Preferences := ⟨none, none, none, none⟩

/-- Witness for C10: with no time preference a 9 o'clock start earns 15
points and a 14 o'clock start earns none. -/
theorem time_preference_default_morning_witness :
    timeScore (fun _ => some ⟨0, 9⟩) defView defPrefs = 15 ∧
    timeScore (fun _ => some ⟨0, 14⟩) defView defPrefs = 0 :=
  ⟨(time_preference_default_morning (fun _ => some ⟨0, 9⟩) defView defPrefs
      ⟨0, 9⟩ rfl rfl rfl).trans (by decide),
   (time_preference_default_morning (fun _ => some ⟨0, 14⟩) defView defPrefs
      ⟨0, 14⟩ rfl rfl rfl).trans (by decide)⟩

theorem pyLower_data (s : String) :
    (pyLower s).data = s.data.map Char.toLower := rfl

theorem pyLower_eq_empty_iff (s : String) : pyLower s = "" ↔ s = "" := by
  rw [String.ext_iff, String.ext_iff, pyLower_data]
  show s.data.map Char.toLower = "".data ↔ s.data = "".data
  have hnil : ("".data : List Char) = [] := rfl
  rw [hnil]
  simp

theorem pyIn_iff (needle hay : String) :
    pyIn needle hay = true ↔ needle.data <:+: hay.data := by
  simp [pyIn]

/-- C5: the Service Match criterion scores either 30 or 0; it scores 30
exactly when the preferred service type is non-empty and its lowered
form occurs as a substring of some lowered view service type; and an
empty preferred service type always scores 0. -/
theorem service_match_award_iff (v : ScoringView) (p : Preferences) :
    (serviceScore v p = 30 ∨ serviceScore v p = 0) ∧
    (serviceScore v p = 30 ↔
      (p.service_type.getD "" ≠ "" ∧
        ∃ s0 ∈ v.service_types,
          (pyLower (p.service_type.getD "")).data <:+: (pyLower s0).data)) ∧
    (p.service_type.getD "" = "" → serviceScore v p = 0) := by
  refine ⟨?_, ?_, ?_⟩
  · simp only [serviceScore]
    split_ifs <;> simp
  · simp only [serviceScore]
    split_ifs with h1 h2
    · constructor
      · intro h
        exact absurd h (by decide)
      · intro h
        exact absurd ((pyLower_eq_empty_iff _).mp h1) h.1
    · constructor
      · intro _
        refine ⟨fun he => h1 ?_, ?_⟩
        · rw [he]
          rfl
        · rcases List.any_eq_true.mp h2 with ⟨s0, hmem, hin⟩
          exact ⟨s0, hmem, (pyIn_iff _ _).mp hin⟩
      · intro _
        rfl
    · constructor
      · intro h
        exact absurd h (by decide)
      · intro h
        rcases h with ⟨hne, s0, hmem, hin⟩
        exact absurd
          (List.any_eq_true.mpr ⟨s0, hmem, (pyIn_iff _ (pyLower s0)).mpr hin⟩) h2
  · intro he
    simp only [serviceScore, he]
    rfl

/-- A view offering a family practice visit, used for the C5 witness. -/
def familyView : ScoringView :=
  ⟨"s", "n", "", [], ["Family Practice Visit"], [], none, false⟩

/-- Preferences asking for family practice, used for the C5 witness. -/
def familyPrefs : Preferences := ⟨some "family practice", none, none, none⟩

/-- Preferences with an empty service type, used for the C5 witness. -/
def emptyServicePrefs : Preferences := ⟨some "", none, none, none⟩

/-- Witness for C5: the case-insensitive substring match earns 30 points
and an empty preferred service type earns none. -/
theorem service_match_award_iff_witness :
    serviceScore familyView familyPrefs = 30 ∧
    serviceScore familyView emptyServicePrefs = 0 :=
  ⟨(service_match_award_iff familyView familyPrefs).2.1.mpr
      ⟨by decide, "Family Practice Visit", by decide, by decide⟩,
   (service_match_award_iff familyView emptyServicePrefs).2.2 rfl⟩

theorem scoreDetails_sum (parseDate : String → Option Timestamp)
    (today : Int) (v : ScoringView) (p : Preferences) :
    (scoreDetails parseDate today v p).foldr (fun kv n => kv.2 + n) 0 =
      totalScore parseDate today v p := by
  unfold scoreDetails totalScore
  split_ifs <;> simp [List.foldr_append] <;> omega

theorem scoreDetails_pos (parseDate : String → Option Timestamp)
    (today : Int) (v : ScoringView) (p : Preferences) :
    ∀ kv ∈ scoreDetails parseDate today v p, 0 < kv.2 := by
  unfold scoreDetails
  split_ifs <;> simp_all

theorem scoreDetails_labels (parseDate : String → Option Timestamp)
    (today : Int) (v : ScoringView) (p : Preferences) :
    (scoreDetails parseDate today v p).map Prod.fst ⊆
      ["Service Match", "Specialty Match", "Time Preference",
       "Availability", "Active Schedule"] := by
  unfold scoreDetails
  split_ifs <;> simp

theorem mem_scoreDetails_service (parseDate : String → Option Timestamp)
    (today : Int) (v : ScoringView) (p : Preferences) :
    ("Service Match", serviceScore v p) ∈ scoreDetails parseDate today v p ↔
      0 < serviceScore v p := by
  unfold scoreDetails
  split_ifs <;> simp_all

theorem mem_scoreDetails_specialty (parseDate : String → Option Timestamp)
    (today : Int) (v : ScoringView) (p : Preferences) :
    ("Specialty Match", specialtyScore v p) ∈ scoreDetails parseDate today v p ↔
      0 < specialtyScore v p := by
  unfold scoreDetails
  split_ifs <;> simp_all

theorem mem_scoreDetails_time (parseDate : String → Option Timestamp)
    (today : Int) (v : ScoringView) (p : Preferences) :
    ("Time Preference", timeScore parseDate v p) ∈ scoreDetails parseDate today v p ↔
      0 < timeScore parseDate v p := by
  unfold scoreDetails
  split_ifs <;> simp_all

theorem mem_scoreDetails_availability (parseDate : String → Option Timestamp)
    (today : Int) (v : ScoringView) (p : Preferences) :
    ("Availability", availabilityScore parseDate today v) ∈
        scoreDetails parseDate today v p ↔
      0 < availabilityScore parseDate today v := by
  unfold scoreDetails
  split_ifs <;> simp_all

theorem mem_scoreDetails_active (parseDate : String → Option Timestamp)
    (today : Int) (v : ScoringView) (p : Preferences) :
    ("Active Schedule", activeScore v) ∈ scoreDetails parseDate today v p ↔
      0 < activeScore v := by
  unfold scoreDetails
  split_ifs <;> simp_all

/-- C4 amended: the breakdown contains exactly the criteria awarded a
non-zero number of points, its values sum to the total score, and its
keys come from the labels Service Match, Specialty Match, Time
Preference, Availability and Active Schedule (the code labels the
active criterion Active Schedule, not Active Status). -/
theorem breakdown_matches_awarded_criteria (parseDate : String → Option Timestamp)
    (today : Int) (v : ScoringView) (p : Preferences) :
    ((scoreDetails parseDate today v p).foldr (fun kv n => kv.2 + n) 0 =
      totalScore parseDate today v p) ∧
    (∀ kv ∈ scoreDetails parseDate today v p, 0 < kv.2) ∧
    (("Service Match", serviceScore v p) ∈ scoreDetails parseDate today v p ↔
      0 < serviceScore v p) ∧
    (("Specialty Match", specialtyScore v p) ∈ scoreDetails parseDate today v p ↔
      0 < specialtyScore v p) ∧
    (("Time Preference", timeScore parseDate v p) ∈
        scoreDetails parseDate today v p ↔ 0 < timeScore parseDate v p) ∧
    (("Availability", availabilityScore parseDate today v) ∈
        scoreDetails parseDate today v p ↔
      0 < availabilityScore parseDate today v) ∧
    (("Active Schedule", activeScore v) ∈ scoreDetails parseDate today v p ↔
      0 < activeScore v) ∧
    ((scoreDetails parseDate today v p).map Prod.fst ⊆
      ["Service Match", "Specialty Match", "Time Preference",
       "Availability", "Active Schedule"]) :=
  ⟨scoreDetails_sum parseDate today v p, scoreDetails_pos parseDate today v p,
   mem_scoreDetails_service parseDate today v p,
   mem_scoreDetails_specialty parseDate today v p,
   mem_scoreDetails_time parseDate today v p,
   mem_scoreDetails_availability parseDate today v p,
   mem_scoreDetails_active parseDate today v p,
   scoreDetails_labels parseDate today v p⟩

/-- An active view used for the C4 counterexample and witness. -/
def activeView : ScoringView := ⟨"s", "n", "", [], [], [], none, true⟩

/-- Preferences with every key absent, used for the C4 counterexample
and witness. -/
def activePrefs : Preferences := ⟨none, none, none, none⟩

/-- C4 counterexample: the active criterion is awarded 10 points, yet the
breakdown keys it as Active Schedule; the label Active Status named by
the claim never appears. -/
theorem breakdown_uses_active_schedule_label :
    activeScore activeView = 10 ∧
    (scoreDetails (fun _ => none) 0 activeView activePrefs).map Prod.fst =
      ["Active Schedule"] ∧
    ("Active Status" ∉
      (scoreDetails (fun _ => none) 0 activeView activePrefs).map Prod.fst) := by
  decide

/-- Witness for the C4 amended theorem: at a concrete active view the
active criterion appears in the breakdown and its points are positive. -/
theorem breakdown_matches_awarded_criteria_witness :
    (("Active Schedule", activeScore activeView) ∈
      scoreDetails (fun _ => none) 0 activeView activePrefs) ∧
    0 < ("Active Schedule", (10 : Nat)).2 :=
  ⟨(breakdown_matches_awarded_criteria (fun _ => none) 0 activeView
      activePrefs).2.2.2.2.2.2.1.mpr (by decide),
   (breakdown_matches_awarded_criteria (fun _ => none) 0 activeView
      activePrefs).2.1 ("Active Schedule", 10) (by decide)⟩

end App
